import Mathlib

/-!
Verification of the TCP file-analysis client/server pair
(`src/3/client/client.py`, `src/3/server/handler.py`).

The Python code is shallowly embedded: `str` values become `List Char`,
byte sequences become `List Nat` (each entry a byte value), and the
stateful handler becomes a pure function from its inputs (the byte
stream received, the wall-clock timestamp, the runtime repr of the
`saved_filename` function object, and success flags for the three
fallible I/O actions) to a trace of its externally visible effects.
-/

namespace FileServer

/-- Shorthand: the character list of a string literal. -/
def chars (s : String) : List Char := s.data

/-! ## Wire codec: `struct.pack`/`unpack` big-endian integers -/

/-- Embedding of `struct.pack("!I", n)`: 4 big-endian bytes.
The Python call raises `struct.error` for `n ≥ 2^32`; theorems that use
`pack32` carry that bound as a hypothesis. -/
def pack32 (n : Nat) : List Nat :=
  [n / 16777216 % 256, n / 65536 % 256, n / 256 % 256, n % 256]

/-- Embedding of `struct.pack("!Q", n)`: 8 big-endian bytes. -/
def pack64 (n : Nat) : List Nat :=
  [n / 72057594037927936 % 256, n / 281474976710656 % 256,
   n / 1099511627776 % 256, n / 4294967296 % 256,
   n / 16777216 % 256, n / 65536 % 256, n / 256 % 256, n % 256]

/-- Embedding of `struct.unpack("!I", bs)[0]` / `struct.unpack("!Q", bs)[0]`:
big-endian interpretation of a byte list. -/
def unpackBE (bs : List Nat) : Nat :=
  bs.foldl (fun acc b => acc * 256 + b) 0

/-! ## UTF-8 encoding and decoding

Embedding of Python's `str.encode("utf-8")` and `bytes.decode("utf-8")`.
A Lean `Char` is a Unicode scalar value, exactly the code points a
strict UTF-8 codec produces. The strict decoder (used for the filename
field in `read_request`; failure there is Python's `UnicodeDecodeError`)
rejects stray continuation bytes, overlong forms, surrogates and code
points above U+10FFFF, as CPython's strict UTF-8 decoder does. -/

/-- One character of `str.encode("utf-8")`. -/
def utf8EncodeChar (c : Char) : List Nat :=
  let n := c.toNat
  if n < 0x80 then [n]
  else if n < 0x800 then [0xC0 + n / 64, 0x80 + n % 64]
  else if n < 0x10000 then [0xE0 + n / 4096, 0x80 + n / 64 % 64, 0x80 + n % 64]
  else [0xF0 + n / 262144, 0x80 + n / 4096 % 64, 0x80 + n / 64 % 64, 0x80 + n % 64]

/-- `str.encode("utf-8")` over a whole string. -/
def utf8Encode : List Char → List Nat
  | [] => []
  | c :: cs => utf8EncodeChar c ++ utf8Encode cs

/-- One step of strict UTF-8 decoding: read the leading byte, its
continuation bytes and validity checks (stray continuation bytes,
overlong forms, surrogates and code points above U+10FFFF are all
rejected, as CPython does); return the decoded character and the
remaining bytes, or `none` on malformed input. -/
def utf8DecodeChar (bs : List Nat) : Option (Char × List Nat) :=
  match bs with
  | [] => none
  | b :: rest =>
    if b < 0x80 then some (Char.ofNat b, rest)
    else if b < 0xC2 then none
    else if b < 0xE0 then
      match rest with
      | b1 :: rest1 =>
        if 0x80 ≤ b1 ∧ b1 < 0xC0 then
          some (Char.ofNat ((b - 0xC0) * 64 + (b1 - 0x80)), rest1)
        else none
      | [] => none
    else if b < 0xF0 then
      match rest with
      | b1 :: b2 :: rest2 =>
        if (0x80 ≤ b1 ∧ b1 < 0xC0) ∧ (0x80 ≤ b2 ∧ b2 < 0xC0) then
          let n := (b - 0xE0) * 4096 + (b1 - 0x80) * 64 + (b2 - 0x80)
          if 0x800 ≤ n ∧ (n < 0xD800 ∨ 0xDFFF < n) then some (Char.ofNat n, rest2)
          else none
        else none
      | _ => none
    else if b < 0xF5 then
      match rest with
      | b1 :: b2 :: b3 :: rest3 =>
        if (0x80 ≤ b1 ∧ b1 < 0xC0) ∧ (0x80 ≤ b2 ∧ b2 < 0xC0) ∧ (0x80 ≤ b3 ∧ b3 < 0xC0) then
          let n := (b - 0xF0) * 262144 + (b1 - 0x80) * 4096 +
                   (b2 - 0x80) * 64 + (b3 - 0x80)
          if 0x10000 ≤ n ∧ n < 0x110000 then some (Char.ofNat n, rest3)
          else none
        else none
      | _ => none
    else none

/-- Strict decoding loop with fuel (the fuel only bounds the number of
characters; the wrapper supplies the input length, which always suffices
since every step consumes at least one byte). -/
def utf8DecodeLoop : Nat → List Nat → Option (List Char)
  | _, [] => some []
  | 0, _ :: _ => none
  | fuel + 1, b :: rest =>
    match utf8DecodeChar (b :: rest) with
    | none => none
    | some (c, rest2) =>
      match utf8DecodeLoop fuel rest2 with
      | none => none
      | some cs => some (c :: cs)

/-- Strict UTF-8 decoding, `bytes.decode("utf-8")`: `none` models
`UnicodeDecodeError`. -/
def utf8Decode (bs : List Nat) : Option (List Char) :=
  utf8DecodeLoop bs.length bs

/-- Lossy decoding loop with fuel: on a malformed sequence, emit U+FFFD,
consume the offending leading byte and continue. -/
def utf8DecodeReplaceAux : Nat → List Nat → List Char
  | _, [] => []
  | 0, _ :: _ => []
  | fuel + 1, b :: rest =>
    match utf8DecodeChar (b :: rest) with
    | some (c, rest2) => c :: utf8DecodeReplaceAux fuel rest2
    | none => '�' :: utf8DecodeReplaceAux fuel rest

/-- Embedding of `bytes.decode("utf-8", errors="replace")`: invalid input
yields U+FFFD replacement characters instead of failing (one replacement
per rejected leading byte). -/
def utf8DecodeReplace (bs : List Nat) : List Char :=
  utf8DecodeReplaceAux bs.length bs

/-! ## Server-side request decoding (`read_request` in handler.py) -/

/-- The exceptions `read_request` can raise: `asyncio.IncompleteReadError`
(carrying the partially read byte count and the expected count) from
`readexactly`, and `UnicodeDecodeError` from `filename_bytes.decode("utf-8")`.
Note there is no oversized-length variant: the code never rejects a
declared length as too large. -/
inductive ReadError where
  | incomplete (got expected : Nat)
  | unicode
deriving DecidableEq

/-- `await reader.readexactly(n)` on a stream whose remaining bytes are
`bs` and which the peer then closes: returns the `n` bytes read plus the
rest of the stream, or raises `IncompleteReadError(partial, expected)`. -/
def readexactly (n : Nat) (bs : List Nat) : Except ReadError (List Nat × List Nat) :=
  if n ≤ bs.length then .ok (bs.take n, bs.drop n)
  else .error (.incomplete bs.length n)

/-- Embedding of `read_request(reader)` (handler.py lines 8-24): read a
4-byte name length, the filename (UTF-8 decoded), an 8-byte content
length, then the content.  Returns the decoded filename, the content and
the unread remainder of the stream. -/
def read_request (bs : List Nat) : Except ReadError (List Char × List Nat × List Nat) :=
  match readexactly 4 bs with
  | .error e => .error e
  | .ok (name_len_data, bs1) =>
    let name_len := unpackBE name_len_data
    match readexactly name_len bs1 with
    | .error e => .error e
    | .ok (filename_bytes, bs2) =>
      match utf8Decode filename_bytes with
      | none => .error .unicode
      | some filename =>
        match readexactly 8 bs2 with
        | .error e => .error e
        | .ok (content_len_data, bs3) =>
          let content_len := unpackBE content_len_data
          match readexactly content_len bs3 with
          | .error e => .error e
          | .ok (content, bs4) => .ok (filename, content, bs4)

/-! ## Client-side request encoding (`send_request` in client.py) -/

/-- Embedding of `send_request(writer, filename, file_content)`
(client.py lines 11-27): the byte stream written to the socket. -/
def send_request (filename : List Char) (file_content : List Nat) : List Nat :=
  pack32 (utf8Encode filename).length ++ utf8Encode filename ++
    pack64 file_content.length ++ file_content

/-! ## The analyzer (`analyze_text` in handler.py) -/

/-- Python's `str.isspace` / `str.split()` whitespace set (Unicode
whitespace). -/
def isPySpace (c : Char) : Bool :=
  let n := c.toNat
  (9 ≤ n && n ≤ 13) || (28 ≤ n && n ≤ 31) || n == 32 || n == 0x85 ||
    n == 0xA0 || n == 0x1680 || (0x2000 ≤ n && n ≤ 0x200A) ||
    n == 0x2028 || n == 0x2029 || n == 0x202F || n == 0x205F || n == 0x3000

/-- Scanning loop of Python's `str.split()` with no separator argument:
accumulate the current word (reversed) in `acc`, close it at whitespace,
drop empty words. -/
def pySplitAux : List Char → List Char → List (List Char)
  | [], acc => if acc.isEmpty then [] else [acc.reverse]
  | c :: rest, acc =>
    if isPySpace c then
      if acc.isEmpty then pySplitAux rest []
      else acc.reverse :: pySplitAux rest []
    else pySplitAux rest (c :: acc)

/-- Embedding of `text.split()`: maximal runs of non-whitespace. -/
def pySplit (text : List Char) : List (List Char) := pySplitAux text []

/-- Embedding of `analyze_text(text)` (handler.py lines 27-31):
`lines` is `text.count('\n') + (1 if text and not text.endswith('\n') else 0)`,
`words` is `len(text.split())`, `chars` is `len(text)`. -/
def analyze_text (text : List Char) : Nat × Nat × Nat :=
  let lines := text.count '\n' +
    (if text ≠ [] ∧ text.getLast? ≠ some '\n' then 1 else 0)
  let words := (pySplit text).length
  let chars := text.length
  (lines, words, chars)

/-- Specification-side word count: the number of maximal runs of
non-whitespace characters, counted directly by a scan that increments
exactly when a non-whitespace character starts a new run (`inWord` says
whether the previous character was non-whitespace). -/
def countRunsAux (inWord : Bool) : List Char → Nat
  | [] => 0
  | c :: rest =>
    (if !isPySpace c && !inWord then 1 else 0) + countRunsAux (!isPySpace c) rest

/-- Number of maximal runs of non-whitespace characters in `text`. -/
def countRuns (text : List Char) : Nat := countRunsAux false text

/-! ## Stored-name derivation (`saved_filename` in handler.py) -/

/-- Decimal digit character, as produced by Python's decimal formatting. -/
def digitChar (d : Nat) : Char :=
  match d with
  | 0 => '0' | 1 => '1' | 2 => '2' | 3 => '3' | 4 => '4'
  | 5 => '5' | 6 => '6' | 7 => '7' | 8 => '8' | _ => '9'

/-- Fuelled most-significant-first decimal rendering (the fuel only
bounds the digit count; `natDigits` supplies enough). -/
def natDigitsAux : Nat → Nat → List Char
  | 0, _ => []
  | fuel + 1, n =>
    if n < 10 then [digitChar n]
    else natDigitsAux fuel (n / 10) ++ [digitChar (n % 10)]

/-- Decimal rendering of a natural number, as Python's `f"{n}"`. -/
def natDigits (n : Nat) : List Char := natDigitsAux (n + 1) n

/-- Specification-side inverse of decimal rendering: read a digit string
back as a number (used to prove `natDigits` injective). -/
def evalDigits (cs : List Char) : Nat :=
  cs.foldl (fun acc c => acc * 10 + (c.toNat - 48)) 0

/-- `p.rfind(c)` on a Python string: index of the last occurrence of `c`,
or `-1` when absent. -/
def rfind (c : Char) (p : List Char) : Int :=
  match p.reverse.findIdx? (fun x => x == c) with
  | some i => (p.length : Int) - 1 - (i : Int)
  | none => -1

/-- Embedding of `os.path.splitext` (posixpath): split off the extension
at the last dot of the final path component, unless every character
between the last separator and that dot is itself a dot (so dotfiles
like `".bashrc"` keep no extension). -/
def splitext (p : List Char) : List Char × List Char :=
  let sepIndex := rfind '/' p
  let dotIndex := rfind '.' p
  if sepIndex < dotIndex then
    let middle := (p.take dotIndex.toNat).drop (sepIndex + 1).toNat
    if middle.any (fun x => x != '.') then
      (p.take dotIndex.toNat, p.drop dotIndex.toNat)
    else (p, [])
  else (p, [])

/-- Embedding of `saved_filename(filename)` (handler.py lines 97-101):
`f"{base}_{timestamp}{ext}"` with `base, ext = os.path.splitext(filename)`.
The millisecond wall-clock reading `int(time.time() * 1000)` is passed
in as the `timestamp` argument. -/
def saved_filename (filename : List Char) (timestamp : Nat) : List Char :=
  (splitext filename).1 ++ '_' :: natDigits timestamp ++ (splitext filename).2

/-- Embedding of `os.path.join(a, b)` (posixpath, two arguments). -/
def posixJoin (a b : List Char) : List Char :=
  if b.head? = some '/' then b
  else if a = [] ∨ a.getLast? = some '/' then a ++ b
  else a ++ '/' :: b

/-! ## The connection handler (`handle_client` in handler.py) -/

/-- Python's `str()` of the `saved_filename` function object, namely
`"<function saved_filename at 0x…>"`; the runtime memory address is the
parameter.  This is what the f-string on handler.py line 61 interpolates,
since it names the function itself instead of calling it. -/
def functionRepr (addr : List Char) : List Char :=
  chars "<function saved_filename at 0x" ++ addr ++ chars ">"

/-- The `result_line` f-string of handler.py lines 60-63:
`f"{saved_filename}: lines={lines}, words={words}, characters={chars}\n"`
with `file_label` standing for the interpolation of its first slot. -/
def result_line (file_label : List Char) (lines words charCount : Nat) : List Char :=
  file_label ++ chars ": lines=" ++ natDigits lines ++ chars ", words=" ++
    natDigits words ++ chars ", characters=" ++ natDigits charCount ++ ['\n']

/-- The success response of handler.py lines 68-72:
`f"File name: {filename}\nLines: {lines}, Words: {words}, Chars: {chars}\n"`. -/
def successResponse (filename : List Char) (lines words charCount : Nat) : List Char :=
  chars "File name: " ++ filename ++ chars "\nLines: " ++ natDigits lines ++
    chars ", Words: " ++ natDigits words ++ chars ", Chars: " ++
    natDigits charCount ++ ['\n']

/-- Python's `str()` of `asyncio.IncompleteReadError(partial, expected)`:
`f"{len(partial)} bytes read on a total of {expected} expected bytes"`. -/
def incompleteMsg (got expected : Nat) : List Char :=
  natDigits got ++ chars " bytes read on a total of " ++ natDigits expected ++
    chars " expected bytes"

/-- The externally visible effects of one `handle_client` run:
completed upload-file writes (path and bytes), completed appends to the
result file, the bytes written back to the client (if any), whether an
error was logged, and whether the connection was closed. -/
structure HandlerTrace where
  storeWrites : List (List Char × List Nat)
  resultAppends : List (List Char)
  response : Option (List Char)
  errorLogged : Bool
  closed : Bool
deriving DecidableEq

/-- Embedding of `handle_client(reader, writer, upload_dir, result_file)`
(handler.py lines 34-94) as an effect trace.

Inputs beyond the code's parameters model the run's environment:
`stream` is the byte sequence the client sends before closing; `ts` is
the millisecond clock reading taken inside `saved_filename`; `reprAddr`
is the runtime address in the repr of the `saved_filename` function
object (interpolated by the buggy `result_line` f-string); `storeOk`,
`appendOk` and `errWriteOk` say whether the upload-file write, the
result-file append and the error-path socket write succeed (an `OSError`
from either file operation is caught only by the generic
`except Exception` clause, which logs and sends nothing; a failing error
response is swallowed by the inner bare `except`).  The success-path
socket write is assumed to succeed. -/
def handle_client (upload_dir result_file : List Char) (stream : List Nat)
    (ts : Nat) (reprAddr : List Char) (storeOk appendOk errWriteOk : Bool) :
    HandlerTrace :=
  match read_request stream with
  | .ok (filename, file_content, _unread) =>
    let saved_path := posixJoin upload_dir (saved_filename filename ts)
    if storeOk then
      let text := utf8DecodeReplace file_content
      let (lines, words, charCount) := analyze_text text
      let line := result_line (functionRepr reprAddr) lines words charCount
      if appendOk then
        { storeWrites := [(saved_path, file_content)]
          resultAppends := [line]
          response := some (successResponse filename lines words charCount)
          errorLogged := false
          closed := true }
      else
        { storeWrites := [(saved_path, file_content)]
          resultAppends := []
          response := none
          errorLogged := true
          closed := true }
    else
      { storeWrites := []
        resultAppends := []
        response := none
        errorLogged := true
        closed := true }
  | .error (.incomplete got expected) =>
    { storeWrites := []
      resultAppends := []
      response := if errWriteOk then
          some (chars "Server error: " ++ incompleteMsg got expected)
        else none
      errorLogged := true
      closed := true }
  | .error .unicode =>
    { storeWrites := []
      resultAppends := []
      response := none
      errorLogged := true
      closed := true }

/-! ## The client (`send_file` in client.py) -/

/-- `os.path.basename` (posixpath): everything after the last `/`. -/
def basename (p : List Char) : List Char :=
  p.drop (rfind '/' p + 1).toNat

/-- Observable actions of one `send_file` invocation, in order. -/
inductive ClientEvent where
  | logError (msg : List Char)
  | connect
  | sendFrame (bytes : List Nat)
  | printResponse (bytes : List Nat)
  | close
deriving DecidableEq

/-- Environment of one `send_file` run: whether `os.path.isfile(filepath)`
holds, the local file's bytes, whether `asyncio.open_connection` succeeds
(with the error text otherwise), whether the send/receive exchange
succeeds (with the error text otherwise), and the server's raw response. -/
structure ClientEnv where
  fileExists : Bool
  fileContent : List Nat
  connectOk : Bool
  connectErr : List Char
  exchangeOk : Bool
  exchangeErr : List Char
  response : List Nat
deriving DecidableEq

/-- Embedding of `send_file(host, port, filepath)` (client.py lines 31-60)
as its ordered list of observable actions. -/
def send_file (host port filepath : List Char) (env : ClientEnv) :
    List ClientEvent :=
  if !env.fileExists then
    [.logError (chars "File " ++ filepath ++ chars " does not exist.")]
  else
    let filename := basename filepath
    if !env.connectOk then
      [.logError (chars "Could not connect to server " ++ host ++ ':' :: port ++
        chars ": " ++ env.connectErr)]
    else if env.exchangeOk then
      [.connect, .sendFrame (send_request filename env.fileContent),
       .printResponse env.response, .close]
    else
      [.connect, .logError (chars "Error during communication: " ++ env.exchangeErr),
       .close]

/-! ## Codec lemmas -/

theorem pack32_length (n : Nat) : (pack32 n).length = 4 := rfl

theorem pack64_length (n : Nat) : (pack64 n).length = 8 := rfl

theorem unpackBE_pack32 (n : Nat) (h : n < 2 ^ 32) : unpackBE (pack32 n) = n := by
  simp only [unpackBE, pack32, List.foldl]
  omega

theorem unpackBE_pack64 (n : Nat) (h : n < 2 ^ 64) : unpackBE (pack64 n) = n := by
  simp only [unpackBE, pack64, List.foldl]
  omega

theorem readexactly_append (xs ys : List Nat) :
    readexactly xs.length (xs ++ ys) = .ok (xs, ys) := by
  simp [readexactly, List.take_left, List.drop_left]

theorem utf8EncodeChar_length_pos (c : Char) : 0 < (utf8EncodeChar c).length := by
  simp only [utf8EncodeChar]
  repeat' split
  all_goals simp

/-- Decoding one encoded character off the front of a byte stream
recovers that character and the remaining bytes. -/
theorem utf8DecodeChar_encodeChar (c : Char) (tail : List Nat) :
    utf8DecodeChar (utf8EncodeChar c ++ tail) = some (c, tail) := by
  have hval : c.toNat < 0xD800 ∨ (0xDFFF < c.toNat ∧ c.toNat < 0x110000) := c.valid
  by_cases h1 : c.toNat < 0x80
  · simp only [utf8EncodeChar, if_pos h1, List.cons_append, List.nil_append]
    simp only [utf8DecodeChar, if_pos h1, Char.ofNat_toNat]
  · by_cases h2 : c.toNat < 0x800
    · simp only [utf8EncodeChar, if_neg h1, if_pos h2, List.cons_append, List.nil_append]
      have hb0 : ¬(0xC0 + c.toNat / 64 < 0x80) := by omega
      have hb1 : ¬(0xC0 + c.toNat / 64 < 0xC2) := by omega
      have hb2 : 0xC0 + c.toNat / 64 < 0xE0 := by omega
      have hc1 : 0x80 ≤ 0x80 + c.toNat % 64 ∧ 0x80 + c.toNat % 64 < 0xC0 := by omega
      simp only [utf8DecodeChar, if_neg hb0, if_neg hb1, if_pos hb2, if_pos hc1]
      have harg : (0xC0 + c.toNat / 64 - 0xC0) * 64 + (0x80 + c.toNat % 64 - 0x80) =
          c.toNat := by omega
      rw [harg, Char.ofNat_toNat]
    · by_cases h3 : c.toNat < 0x10000
      · simp only [utf8EncodeChar, if_neg h1, if_neg h2, if_pos h3, List.cons_append,
          List.nil_append]
        have hb0 : ¬(0xE0 + c.toNat / 4096 < 0x80) := by omega
        have hb1 : ¬(0xE0 + c.toNat / 4096 < 0xC2) := by omega
        have hb2 : ¬(0xE0 + c.toNat / 4096 < 0xE0) := by omega
        have hb3 : 0xE0 + c.toNat / 4096 < 0xF0 := by omega
        have hc1 : (0x80 ≤ 0x80 + c.toNat / 64 % 64 ∧ 0x80 + c.toNat / 64 % 64 < 0xC0) ∧
            0x80 ≤ 0x80 + c.toNat % 64 ∧ 0x80 + c.toNat % 64 < 0xC0 := by omega
        simp only [utf8DecodeChar, if_neg hb0, if_neg hb1, if_neg hb2, if_pos hb3,
          if_pos hc1]
        have harg : (0xE0 + c.toNat / 4096 - 0xE0) * 4096 +
            (0x80 + c.toNat / 64 % 64 - 0x80) * 64 + (0x80 + c.toNat % 64 - 0x80) =
            c.toNat := by omega
        rw [harg]
        have hguard : 0x800 ≤ c.toNat ∧ (c.toNat < 0xD800 ∨ 0xDFFF < c.toNat) := by omega
        rw [if_pos hguard, Char.ofNat_toNat]
      · have h4 : c.toNat < 0x110000 := by omega
        simp only [utf8EncodeChar, if_neg h1, if_neg h2, if_neg h3, List.cons_append,
          List.nil_append]
        have hb0 : ¬(0xF0 + c.toNat / 262144 < 0x80) := by omega
        have hb1 : ¬(0xF0 + c.toNat / 262144 < 0xC2) := by omega
        have hb2 : ¬(0xF0 + c.toNat / 262144 < 0xE0) := by omega
        have hb3 : ¬(0xF0 + c.toNat / 262144 < 0xF0) := by omega
        have hb4 : 0xF0 + c.toNat / 262144 < 0xF5 := by omega
        have hc1 : (0x80 ≤ 0x80 + c.toNat / 4096 % 64 ∧ 0x80 + c.toNat / 4096 % 64 < 0xC0) ∧
            (0x80 ≤ 0x80 + c.toNat / 64 % 64 ∧ 0x80 + c.toNat / 64 % 64 < 0xC0) ∧
            0x80 ≤ 0x80 + c.toNat % 64 ∧ 0x80 + c.toNat % 64 < 0xC0 := by omega
        simp only [utf8DecodeChar, if_neg hb0, if_neg hb1, if_neg hb2, if_neg hb3,
          if_pos hb4, if_pos hc1]
        have harg : (0xF0 + c.toNat / 262144 - 0xF0) * 262144 +
            (0x80 + c.toNat / 4096 % 64 - 0x80) * 4096 +
            (0x80 + c.toNat / 64 % 64 - 0x80) * 64 + (0x80 + c.toNat % 64 - 0x80) =
            c.toNat := by omega
        rw [harg]
        have hguard : 0x10000 ≤ c.toNat ∧ c.toNat < 0x110000 := by omega
        rw [if_pos hguard, Char.ofNat_toNat]

theorem utf8DecodeLoop_encode (cs : List Char) : ∀ fuel : Nat,
    (utf8Encode cs).length ≤ fuel → utf8DecodeLoop fuel (utf8Encode cs) = some cs := by
  induction cs with
  | nil =>
    intro fuel _
    simp [utf8Encode, utf8DecodeLoop]
  | cons c cs ih =>
    intro fuel hfuel
    have hpos := utf8EncodeChar_length_pos c
    have hlen : (utf8Encode (c :: cs)).length =
        (utf8EncodeChar c).length + (utf8Encode cs).length := by
      simp [utf8Encode]
    cases fuel with
    | zero => omega
    | succ fuel =>
      obtain ⟨b, bs2, hb⟩ : ∃ b bs2, utf8EncodeChar c ++ utf8Encode cs = b :: bs2 := by
        cases he : utf8EncodeChar c with
        | nil => rw [he] at hpos; simp at hpos
        | cons x xs => exact ⟨x, xs ++ utf8Encode cs, by simp [he]⟩
      show utf8DecodeLoop (fuel + 1) (utf8EncodeChar c ++ utf8Encode cs) = some (c :: cs)
      rw [hb]
      simp only [utf8DecodeLoop]
      rw [← hb]
      simp only [utf8DecodeChar_encodeChar, ih fuel (by omega)]

/-- Strict UTF-8 decoding is a left inverse of UTF-8 encoding. -/
theorem utf8Decode_utf8Encode (cs : List Char) :
    utf8Decode (utf8Encode cs) = some cs :=
  utf8DecodeLoop_encode cs (utf8Encode cs).length le_rfl

/-- Shared round-trip fact: the server-side decoder recovers exactly the
frame the client-side encoder produced. -/
theorem frame_roundtrip (filename : List Char) (content : List Nat)
    (h1 : (utf8Encode filename).length < 2 ^ 32)
    (h2 : content.length < 2 ^ 64) :
    read_request (send_request filename content) = .ok (filename, content, []) := by
  have hsr : send_request filename content =
      pack32 (utf8Encode filename).length ++
        (utf8Encode filename ++ (pack64 content.length ++ content)) := by
    simp [send_request, List.append_assoc]
  have e1 : readexactly 4 (pack32 (utf8Encode filename).length ++
      (utf8Encode filename ++ (pack64 content.length ++ content))) =
      .ok (pack32 (utf8Encode filename).length,
        utf8Encode filename ++ (pack64 content.length ++ content)) := by
    rw [← pack32_length (utf8Encode filename).length]
    exact readexactly_append _ _
  have e2 : unpackBE (pack32 (utf8Encode filename).length) =
      (utf8Encode filename).length := unpackBE_pack32 _ h1
  have e3 : readexactly (utf8Encode filename).length
      (utf8Encode filename ++ (pack64 content.length ++ content)) =
      .ok (utf8Encode filename, pack64 content.length ++ content) :=
    readexactly_append _ _
  have e4 : utf8Decode (utf8Encode filename) = some filename :=
    utf8Decode_utf8Encode filename
  have e5 : readexactly 8 (pack64 content.length ++ content) =
      .ok (pack64 content.length, content) := by
    rw [← pack64_length content.length]
    exact readexactly_append _ _
  have e6 : unpackBE (pack64 content.length) = content.length := unpackBE_pack64 _ h2
  have e7 : readexactly content.length content = .ok (content, []) := by
    simpa using readexactly_append content []
  rw [hsr]
  simp only [read_request, e1, e2, e3, e4, e5, e6, e7]

/-! ## Analyzer lemmas: `len(text.split())` counts maximal non-whitespace runs -/

theorem countRunsAux_dropWhile (l : List Char) :
    countRunsAux true l = countRunsAux false (l.dropWhile (fun x => !isPySpace x)) := by
  induction l with
  | nil => rfl
  | cons x xs ih =>
    by_cases hx : isPySpace x
    · simp [countRunsAux, List.dropWhile, hx]
    · simp [countRunsAux, List.dropWhile, hx, ih]

theorem pySplitAux_length (l : List Char) : ∀ acc : List Char,
    (pySplitAux l acc).length =
      (if acc.isEmpty then 0 else 1) + countRunsAux (!acc.isEmpty) l := by
  induction l with
  | nil =>
    intro acc
    cases acc <;> simp [pySplitAux, countRunsAux, List.isEmpty]
  | cons c rest ih =>
    intro acc
    by_cases hc : isPySpace c
    · cases acc with
      | nil => simp [pySplitAux, countRunsAux, hc, ih]
      | cons a as => simp [pySplitAux, countRunsAux, hc, ih, Nat.add_comm]
    · cases acc with
      | nil => simp [pySplitAux, countRunsAux, hc, ih]
      | cons a as => simp [pySplitAux, countRunsAux, hc, ih]

/-- The length of Python's `text.split()` equals the number of maximal
runs of non-whitespace characters. -/
theorem pySplit_length_eq_countRuns (text : List Char) :
    (pySplit text).length = countRuns text := by
  simpa [pySplit, countRuns] using pySplitAux_length text []

/-! ## Decimal rendering lemmas -/

theorem evalDigits_append (xs : List Char) (c : Char) :
    evalDigits (xs ++ [c]) = evalDigits xs * 10 + (c.toNat - 48) := by
  simp [evalDigits, List.foldl_append]

theorem evalDigit_digitChar (d : Nat) (h : d < 10) : (digitChar d).toNat - 48 = d := by
  interval_cases d <;> decide

theorem evalDigits_natDigitsAux (fuel : Nat) : ∀ n : Nat, n < fuel →
    evalDigits (natDigitsAux fuel n) = n := by
  induction fuel with
  | zero => omega
  | succ fuel ih =>
    intro n h
    by_cases h10 : n < 10
    · simpa [natDigitsAux, h10, evalDigits] using evalDigit_digitChar n h10
    · rw [natDigitsAux, if_neg h10, evalDigits_append, ih (n / 10) (by omega),
        evalDigit_digitChar (n % 10) (by omega)]
      omega

theorem natDigits_injective (a b : Nat) (h : natDigits a = natDigits b) : a = b := by
  have ha : evalDigits (natDigits a) = a := evalDigits_natDigitsAux (a + 1) a (by omega)
  have hb : evalDigits (natDigits b) = b := evalDigits_natDigitsAux (b + 1) b (by omega)
  rw [← ha, ← hb, h]

/-! ## Claim theorems -/

/-- C1: the claim says the line appended to the result file is exactly
`"<stored-name>: lines=<L>, words=<W>, characters=<C>\n"`.  The code's
f-string (handler.py line 61) interpolates the *function object*
`saved_filename` instead of the stored name, so for the upload of
`"test.txt"` with content `"hi"` at timestamp 1000 the appended line is
`"<function saved_filename at 0x…>: lines=1, words=1, characters=2\n"`
and differs (for every runtime address) from the claimed
`"test_1000.txt: lines=1, words=1, characters=2\n"`. -/
theorem result_line_is_function_repr (addr : List Char) :
    (handle_client (chars "uploads") (chars "results.txt")
        (send_request (chars "test.txt") [104, 105]) 1000 addr true true true).resultAppends =
      [result_line (functionRepr addr) 1 1 2] ∧
    (handle_client (chars "uploads") (chars "results.txt")
        (send_request (chars "test.txt") [104, 105]) 1000 addr true true true).resultAppends ≠
      [chars "test_1000.txt: lines=1, words=1, characters=2\n"] := by
  have h0 : (handle_client (chars "uploads") (chars "results.txt")
      (send_request (chars "test.txt") [104, 105]) 1000 addr true true true).resultAppends =
      [result_line (functionRepr addr) 1 1 2] := rfl
  refine ⟨h0, fun h => ?_⟩
  rw [h0] at h
  have h1 : result_line (functionRepr addr) 1 1 2 =
      chars "test_1000.txt: lines=1, words=1, characters=2\n" := by
    simpa using h
  have h2 := congrArg List.head? h1
  have h3 : (result_line (functionRepr addr) 1 1 2).head? = some '<' := rfl
  rw [h3] at h2
  exact absurd h2 (by decide)

/-- C2: the claim says oversized `name_len`/`content_len` are rejected with
`FramingError(OversizedField)` before reading.  The code has no such check:
`read_request` accepts a frame with any declared `content_len` (up to the
encoder's 8-byte field limit) and reads all of it — its only failure modes,
the constructors of `ReadError`, are short reads and invalid UTF-8, with no
oversized variant. -/
theorem no_oversized_rejection (content : List Nat) (h : content.length < 2 ^ 64) :
    read_request (send_request (chars "a") content) = .ok (chars "a", content, []) :=
  frame_roundtrip (chars "a") content (by decide) h

set_option maxRecDepth 10000 in
/-- Witness for C2 at a concrete 300-byte content. -/
theorem no_oversized_rejection_witness :
    (List.replicate 300 66 : List Nat).length < 2 ^ 64 ∧
    read_request (send_request (chars "a") (List.replicate 300 66)) =
      .ok (chars "a", List.replicate 300 66, []) :=
  ⟨by decide, no_oversized_rejection (List.replicate 300 66) (by decide)⟩

/-- C3 counterexample: the claim's third example says
`analyze_text "Single line file."` yields chars=18, but the string has 17
characters, and the analyzer returns `(1, 3, 17)`. -/
theorem analyzer_third_example_false :
    analyze_text (chars "Single line file.") ≠ (1, 3, 18) := by decide

/-- C3 (amended): the Analyzer returns lines = number of `'\n'` characters
plus one if the text is non-empty and does not end in `'\n'` (0 for empty
text), words = number of maximal runs of non-whitespace characters, and
chars = number of characters of the decoded text; it yields `(2, 7, 33)`
for `"Hello world\nThis is a test file.\n"`, `(0, 0, 0)` for `""` and
`(1, 3, 17)` (not 18) for `"Single line file."`. -/
theorem analyzer_spec :
    (∀ text : List Char,
      analyze_text text =
        (text.count '\n' +
           (if text ≠ [] ∧ text.getLast? ≠ some '\n' then 1 else 0),
         countRuns text, text.length)) ∧
    analyze_text (chars "Hello world\nThis is a test file.\n") = (2, 7, 33) ∧
    analyze_text [] = (0, 0, 0) ∧
    analyze_text (chars "Single line file.") = (1, 3, 17) := by
  refine ⟨fun text => ?_, by decide, by decide, by decide⟩
  simp [analyze_text, pySplit_length_eq_countRuns]

/-- C4: decoding the byte stream produced by encoding recovers exactly the
original filename and content, whenever the encoded name length fits the
4-byte field and the content length fits the 8-byte field. -/
theorem codec_roundtrip (filename : List Char) (content : List Nat)
    (h1 : (utf8Encode filename).length < 2 ^ 32)
    (h2 : content.length < 2 ^ 64) :
    read_request (send_request filename content) = .ok (filename, content, []) :=
  frame_roundtrip filename content h1 h2

/-- Witness for C4 at filename `"test.txt"` and content `"hi"`. -/
theorem codec_roundtrip_witness :
    (utf8Encode (chars "test.txt")).length < 2 ^ 32 ∧
    ([104, 105] : List Nat).length < 2 ^ 64 ∧
    read_request (send_request (chars "test.txt") [104, 105]) =
      .ok (chars "test.txt", [104, 105], []) :=
  ⟨by decide, by decide,
   codec_roundtrip (chars "test.txt") [104, 105] (by decide) (by decide)⟩

/-- C5: the claim says path traversal characters in the derived stored name
are stripped or rejected.  `saved_filename` passes them straight through:
for the client filename `"../secret.txt"` the derived name is
`"../secret_1000.txt"`, still containing a `/` directory separator and a
leading `..`, so `os.path.join` places the file outside `upload_dir`
(`"uploads/../secret_1000.txt"`). -/
theorem traversal_passed_through :
    saved_filename (chars "../secret.txt") 1000 = chars "../secret_1000.txt" ∧
    '/' ∈ saved_filename (chars "../secret.txt") 1000 ∧
    posixJoin (chars "uploads") (saved_filename (chars "../secret.txt") 1000) =
      chars "uploads/../secret_1000.txt" := by
  exact ⟨by decide, by decide, by decide⟩

/-- C6: when frame decoding fails with an incomplete read, the handler
performs zero upload-store writes and zero result-file appends, attempts a
best-effort `"Server error: <message>"` response, discards it silently if
that write also fails, and always closes the connection. -/
theorem handler_framing_failure (upload_dir result_file : List Char)
    (stream : List Nat) (ts : Nat) (reprAddr : List Char)
    (storeOk appendOk errWriteOk : Bool) (got expected : Nat)
    (h : read_request stream = .error (.incomplete got expected)) :
    (handle_client upload_dir result_file stream ts reprAddr
        storeOk appendOk errWriteOk).storeWrites = [] ∧
    (handle_client upload_dir result_file stream ts reprAddr
        storeOk appendOk errWriteOk).resultAppends = [] ∧
    (errWriteOk = true →
      (handle_client upload_dir result_file stream ts reprAddr
          storeOk appendOk errWriteOk).response =
        some (chars "Server error: " ++ incompleteMsg got expected)) ∧
    (errWriteOk = false →
      (handle_client upload_dir result_file stream ts reprAddr
          storeOk appendOk errWriteOk).response = none) ∧
    (handle_client upload_dir result_file stream ts reprAddr
        storeOk appendOk errWriteOk).closed = true := by
  simp only [handle_client, h]
  cases errWriteOk <;> simp

/-- Witness for C6 at the 3-byte stream `[0, 0, 0]` (closed before the
4-byte length field completes). -/
theorem handler_framing_failure_witness :
    read_request [0, 0, 0] = .error (.incomplete 3 4) ∧
    ((handle_client [] [] [0, 0, 0] 0 [] true true true).storeWrites = [] ∧
     (handle_client [] [] [0, 0, 0] 0 [] true true true).resultAppends = [] ∧
     (true = true → (handle_client [] [] [0, 0, 0] 0 [] true true true).response =
        some (chars "Server error: " ++ incompleteMsg 3 4)) ∧
     (true = false → (handle_client [] [] [0, 0, 0] 0 [] true true true).response = none) ∧
     (handle_client [] [] [0, 0, 0] 0 [] true true true).closed = true) :=
  ⟨rfl, handler_framing_failure [] [] [0, 0, 0] 0 [] true true true 3 4 rfl⟩

/-- C7: the claim says that when the result-file append fails, the
already-computed success response is still sent and the failure is logged.
In the code an `OSError` from the append is caught only by the generic
`except Exception` clause, which logs but sends nothing: at a fully valid
upload with a failing append, the response is `none` (no bytes sent) while
the error is logged — the response is lost, contradicting the claim. -/
theorem append_failure_drops_response :
    handle_client (chars "uploads") (chars "results.txt")
        (send_request (chars "test.txt") [104, 105]) 1000 (chars "7f") true false true =
      { storeWrites := [(chars "uploads/test_1000.txt", [104, 105])]
        resultAppends := []
        response := none
        errorLogged := true
        closed := true } := by decide

/-- C8: the stored name is exactly `"<base>_<timestamp-millis><ext>"` with
`base`/`ext` from `os.path.splitext` of the client filename, and two
uploads of the same filename at different millisecond timestamps get
distinct stored names. -/
theorem saved_filename_format (filename : List Char) (t1 t2 : Nat) (h : t1 ≠ t2) :
    saved_filename filename t1 =
      (splitext filename).1 ++ '_' :: natDigits t1 ++ (splitext filename).2 ∧
    saved_filename filename t1 ≠ saved_filename filename t2 := by
  refine ⟨rfl, fun hc => h ?_⟩
  unfold saved_filename at hc
  have h2 := List.append_cancel_right hc
  have h3 := List.append_cancel_left h2
  have h4 := (List.cons.inj h3).2
  exact natDigits_injective _ _ h4

/-- Witness for C8 at filename `"a.txt"` and timestamps 1 and 2. -/
theorem saved_filename_format_witness :
    (1 : Nat) ≠ 2 ∧
    (saved_filename (chars "a.txt") 1 =
      (splitext (chars "a.txt")).1 ++ '_' :: natDigits 1 ++ (splitext (chars "a.txt")).2 ∧
     saved_filename (chars "a.txt") 1 ≠ saved_filename (chars "a.txt") 2) :=
  ⟨by decide, saved_filename_format (chars "a.txt") 1 2 (by decide)⟩

/-- C9: when the local file path does not name an existing file, the client
logs a local error and returns: its whole event trace is that single log
entry — it never opens a connection, never sends a frame, and performs no
retry. -/
theorem client_missing_file_no_connect (host port filepath : List Char)
    (env : ClientEnv) (h : env.fileExists = false) :
    send_file host port filepath env =
      [.logError (chars "File " ++ filepath ++ chars " does not exist.")] ∧
    ClientEvent.connect ∉ send_file host port filepath env ∧
    ∀ bs : List Nat, ClientEvent.sendFrame bs ∉ send_file host port filepath env := by
  have he : send_file host port filepath env =
      [.logError (chars "File " ++ filepath ++ chars " does not exist.")] := by
    simp [send_file, h]
  exact ⟨he, by simp [he], fun bs => by simp [he]⟩

/-- Witness for C9 at a concrete environment whose file does not exist. -/
theorem client_missing_file_no_connect_witness :
    (ClientEnv.mk false [] true [] true [] []).fileExists = false ∧
    send_file (chars "localhost") (chars "8888") (chars "data.txt")
        (ClientEnv.mk false [] true [] true [] []) =
      [.logError (chars "File " ++ chars "data.txt" ++ chars " does not exist.")] ∧
    ClientEvent.connect ∉ send_file (chars "localhost") (chars "8888") (chars "data.txt")
        (ClientEnv.mk false [] true [] true [] []) ∧
    ClientEvent.sendFrame [7] ∉ send_file (chars "localhost") (chars "8888")
        (chars "data.txt") (ClientEnv.mk false [] true [] true [] []) :=
  ⟨rfl,
   (client_missing_file_no_connect (chars "localhost") (chars "8888") (chars "data.txt")
      (ClientEnv.mk false [] true [] true [] []) rfl).1,
   (client_missing_file_no_connect (chars "localhost") (chars "8888") (chars "data.txt")
      (ClientEnv.mk false [] true [] true [] []) rfl).2.1,
   (client_missing_file_no_connect (chars "localhost") (chars "8888") (chars "data.txt")
      (ClientEnv.mk false [] true [] true [] []) rfl).2.2 [7]⟩

/-- C10: when the filename bytes are not valid UTF-8, the handler takes the
generic (non-framing) error path: no store write, no result append, no
response bytes at all, and the connection is closed. -/
theorem handler_invalid_utf8_filename (upload_dir result_file : List Char)
    (stream : List Nat) (ts : Nat) (reprAddr : List Char)
    (storeOk appendOk errWriteOk : Bool)
    (h : read_request stream = .error .unicode) :
    handle_client upload_dir result_file stream ts reprAddr storeOk appendOk errWriteOk =
      { storeWrites := [], resultAppends := [], response := none,
        errorLogged := true, closed := true } := by
  simp [handle_client, h]

/-- Witness for C10 at a frame whose 1-byte filename field is the invalid
UTF-8 byte `0xFF`. -/
theorem handler_invalid_utf8_filename_witness :
    read_request [0, 0, 0, 1, 255] = .error .unicode ∧
    handle_client [] [] [0, 0, 0, 1, 255] 0 [] true true true =
      { storeWrites := [], resultAppends := [], response := none,
        errorLogged := true, closed := true } :=
  ⟨rfl, handler_invalid_utf8_filename [] [] [0, 0, 0, 1, 255] 0 [] true true true rfl⟩

end FileServer
